import Mathlib

/-!
Verification of the request-security core of the `gin-pkg` repository:
a shallow embedding in Lean 4 of the nonce store, timestamp validator,
signature validator, JWT token service, and the two middleware adapters,
together with theorems settling the specification's claims about them.

Sources embedded:
* `pkg/util/redis.go` — the Redis-backed nonce / blacklist store
  (modelled as a pure keyed set with explicit state passing; transient
  I/O failures are modelled by explicit fault injection).
* `pkg/auth/security/security_service.go` — `DefaultSecurityService`.
* `pkg/auth/jwt.go` — `JWTService` (the external `golang-jwt` codec is
  modelled as an ideal unforgeable MAC: a signed token is the claim set
  together with the algorithm and the key that signed it).
* `pkg/middleware/security.go`, `pkg/middleware/auth.go` — middleware.
-/

namespace GinPkg

/-! ### Nonce store (`pkg/util/redis.go`)

The Redis keyspace `nonce:<value>` is modelled as the list of currently
stored nonce values.  `StoreNonce` is `SET` with TTL, `GetNonce` is
`EXISTS`, `InvalidateNonce` is `DEL`.  TTL-based expiry is not modelled:
all claims about nonces are stated within the validity interval. -/

/-- State of the Redis nonce keyspace: the set of live nonce values. -/
abbrev NonceStore := List String

/-- Models `RedisClient.StoreNonce`: `SET nonce:<n> 1 EX ttl`. -/
def storeNonce (st : NonceStore) (nonce : String) : NonceStore :=
  nonce :: st

/-- Models `RedisClient.GetNonce`: `EXISTS nonce:<n>`. -/
def getNonce (st : NonceStore) (nonce : String) : Bool :=
  st.contains nonce

/-- Models `RedisClient.InvalidateNonce`: `DEL nonce:<n>` (removes the key). -/
def invalidateNonce (st : NonceStore) (nonce : String) : NonceStore :=
  st.filter (fun k => k != nonce)

/-! ### Security service, nonce operations
(`pkg/auth/security/security_service.go`) -/

/-- Transient I/O faults injected into the two store calls made by
`DefaultSecurityService.ValidateNonce`: `some e` makes the corresponding
Redis call fail with error message `e`.  `StoreFaults.none` is the
fault-free run assumed by the sequential claims. -/
structure StoreFaults where
  getFault : Option String
  delFault : Option String

/-- Fault-free store behaviour (no I/O errors). -/
def StoreFaults.clean : StoreFaults := ⟨none, none⟩

/-- Models `DefaultSecurityService.GenerateNonce`: generates a fresh
random value (passed in as `fresh`, standing for `uuid.New().String()`)
and stores it with the configured validity duration. -/
def generateNonce (st : NonceStore) (fresh : String) : String × NonceStore :=
  (fresh, storeNonce st fresh)

/-- Models `DefaultSecurityService.ValidateNonce`: calls `GetNonce`
(`EXISTS`); on I/O error returns `failed to check nonce: <e>`; if the
nonce is absent returns `invalid or expired nonce`; otherwise calls
`InvalidateNonce` (`DEL`) and returns success.  Returns the resulting
store state alongside the outcome. -/
def validateNonce (faults : StoreFaults) (st : NonceStore) (nonce : String) :
    Except String Unit × NonceStore :=
  match faults.getFault with
  | some e => (Except.error ("failed to check nonce: " ++ e), st)
  | none =>
    if getNonce st nonce then
      match faults.delFault with
      | some e => (Except.error ("failed to invalidate nonce: " ++ e), st)
      | none => (Except.ok (), invalidateNonce st nonce)
    else
      (Except.error "invalid or expired nonce", st)

/-- Operations a client can perform against the nonce store between two
validations: issue a fresh nonce or consume some nonce. -/
inductive SecOp where
  | gen (fresh : String)
  | consume (nonce : String)

/-- Runs a sequence of fault-free security-service operations, threading
the store state. -/
def runOps (ops : List SecOp) (st : NonceStore) : NonceStore :=
  match ops with
  | [] => st
  | SecOp.gen f :: rest => runOps rest (generateNonce st f).2
  | SecOp.consume n :: rest => runOps rest (validateNonce StoreFaults.clean st n).2

/-! ### Interleaving model of two concurrent `ValidateNonce` calls

`ValidateNonce` performs two separate Redis commands: `EXISTS` (via
`getNonce`) and then `DEL` (via `invalidateNonce`).  Each single command
is atomic, but the pair is not; this model runs two consumers of the
same nonce, each executing the program `EXISTS; DEL`, under an arbitrary
interleaving of their atomic steps.  The shared state is the presence
bit of that one nonce key. -/

/-- Local state of one `ValidateNonce` call in flight: `pc = 0` before
the `EXISTS` step, `pc = 1` before the `DEL` step, `pc = 2` finished;
`valid` records whether the call returns success. -/
structure Consumer where
  pc : Nat
  valid : Bool
deriving DecidableEq, Repr

/-- A consumer that has not started yet. -/
def Consumer.init : Consumer := ⟨0, false⟩

/-- One atomic step of a `ValidateNonce` call: the `EXISTS` command
observes the presence bit (an absent nonce ends the call with the
invalid-or-expired outcome), and the `DEL` command clears it. -/
def stepConsumer (present : Bool) (c : Consumer) : Bool × Consumer :=
  match c.pc with
  | 0 => if present then (present, ⟨1, true⟩) else (present, ⟨2, false⟩)
  | 1 => (false, ⟨2, c.valid⟩)
  | _ => (present, c)

/-- Runs two concurrent `ValidateNonce` calls under a schedule: `true`
lets consumer `a` take its next atomic step, `false` consumer `b`. -/
def runSchedule (sched : List Bool) (present : Bool) (a b : Consumer) :
    Bool × Consumer × Consumer :=
  match sched with
  | [] => (present, a, b)
  | true :: rest =>
    let s := stepConsumer present a
    runSchedule rest s.1 s.2 b
  | false :: rest =>
    let s := stepConsumer present b
    runSchedule rest s.1 a s.2

/-! ### Timestamp validation
(`DefaultSecurityService.ValidateTimestamp`) -/

/-- Accumulates the decimal value of a digit string, failing on any
non-digit character (the digit branch of `strconv.ParseInt`). -/
def digitsVal (cs : List Char) : Option Nat :=
  cs.foldl
    (fun acc c =>
      match acc with
      | none => none
      | some n => if c.isDigit then some (n * 10 + (c.toNat - 48)) else none)
    (some 0)

/-- Models `strconv.ParseInt(s, 10, 64)`: optional sign, at least one
digit, all characters digits, and the value must fit in a signed 64-bit
integer; `none` is Go's non-nil error. -/
def parseInt64 (s : String) : Option Int :=
  match s.data with
  | [] => none
  | c :: rest =>
    let signed : Bool × List Char :=
      if c = '-' then (true, rest)
      else if c = '+' then (false, rest)
      else (false, c :: rest)
    match signed.2 with
    | [] => none
    | ds =>
      match digitsVal ds with
      | none => none
      | some n =>
        let v : Int := if signed.1 then -(n : Int) else (n : Int)
        if v < -(2 ^ 63) ∨ v > 2 ^ 63 - 1 then none else some v

/-- Models `DefaultSecurityService.ValidateTimestamp`.  Times are in
nanoseconds (Go's `time.Duration` / monotonic clock unit); the request
timestamp string is milliseconds since epoch, so `time.UnixMilli ts`
is `ts * 1000000` ns.  The window and `nowNs` are explicit parameters;
rejection happens exactly when `diff < -window ∨ diff > window` where
`diff = now - requestTime`. -/
def validateTimestamp (timestamp : String) (validityWindow : Int) (nowNs : Int) :
    Except String Unit :=
  match parseInt64 timestamp with
  | none => Except.error "invalid timestamp format"
  | some ts =>
    let diff := nowNs - ts * 1000000
    if diff < -validityWindow ∨ diff > validityWindow then
      Except.error "timestamp is outside validity window"
    else
      Except.ok ()

/-- Models `DefaultAuthService.ValidateTimestamp`
(`internal/service/auth/auth.go`): delegates to the security service
with window `0`; the call-site comment reads
`0 will use the default validity window`. -/
def authServiceValidateTimestamp (timestamp : String) (nowNs : Int) :
    Except String Unit :=
  validateTimestamp timestamp 0 nowNs

/-- Default `security.timestampValidityWindow` installed by
`config.Load` when unset: 60 seconds, in nanoseconds. -/
def defaultTimestampValidityWindow : Int := 60 * 1000000000

/-! ### SHA-256 and HMAC (`crypto/sha256`, `crypto/hmac`)

The Go code consumes these as standard library primitives; they are
embedded here as executable functions over byte lists (each byte a
`Nat`, reduced `% 256` where produced), following FIPS 180-4 and
RFC 2104. -/

/-- Right rotation of a 32-bit word. -/
def rotr32 (n x : Nat) : Nat :=
  ((x >>> n) ||| (x <<< (32 - n))) % 4294967296

/-- The SHA-256 choice function; complement is taken within 32 bits. -/
def shaCh (x y z : Nat) : Nat :=
  (x &&& y) ^^^ ((x ^^^ 0xffffffff) &&& z)

/-- The SHA-256 majority function. -/
def shaMaj (x y z : Nat) : Nat :=
  (x &&& y) ^^^ (x &&& z) ^^^ (y &&& z)

/-- Big sigma-0 of FIPS 180-4. -/
def bigSigma0 (x : Nat) : Nat :=
  rotr32 2 x ^^^ rotr32 13 x ^^^ rotr32 22 x

/-- Big sigma-1 of FIPS 180-4. -/
def bigSigma1 (x : Nat) : Nat :=
  rotr32 6 x ^^^ rotr32 11 x ^^^ rotr32 25 x

/-- Small sigma-0 of FIPS 180-4. -/
def smallSigma0 (x : Nat) : Nat :=
  rotr32 7 x ^^^ rotr32 18 x ^^^ (x >>> 3)

/-- Small sigma-1 of FIPS 180-4. -/
def smallSigma1 (x : Nat) : Nat :=
  rotr32 17 x ^^^ rotr32 19 x ^^^ (x >>> 10)

/-- Groups a byte list into big-endian 32-bit words. -/
def bytesToWords : List Nat → List Nat
  | b0 :: b1 :: b2 :: b3 :: rest =>
    (((b0 * 256 + b1) * 256 + b2) * 256 + b3) :: bytesToWords rest
  | _ => []

/-- Writes `n` as `k` big-endian bytes. -/
def beBytes : Nat → Nat → List Nat
  | 0, _ => []
  | k + 1, n => beBytes k (n / 256) ++ [n % 256]

/-- Extends a message schedule by one word. -/
def scheduleStep (a : Array Nat) : Array Nat :=
  let i := a.size
  a.push ((smallSigma1 (a.getD (i - 2) 0) + a.getD (i - 7) 0 +
    smallSigma0 (a.getD (i - 15) 0) + a.getD (i - 16) 0) % 4294967296)

/-- Applies `scheduleStep` a given number of times. -/
def extendLoop : Nat → Array Nat → Array Nat
  | 0, a => a
  | n + 1, a => extendLoop n (scheduleStep a)

/-- The 64-word message schedule of one 64-byte block. -/
def sha256Schedule (block : List Nat) : Array Nat :=
  extendLoop 48 (bytesToWords block).toArray

/-- The SHA-256 round constants of FIPS 180-4 (in decimal). -/
def sha256K : List Nat :=
  [1116352408, 1899447441, 3049323471, 3921009573, 961987163,
   1508970993, 2453635748, 2870763221, 3624381080, 310598401,
   607225278, 1426881987, 1925078388, 2162078206, 2614888103,
   3248222580, 3835390401, 4022224774, 264347078, 604807628,
   770255983, 1249150122, 1555081692, 1996064986, 2554220882,
   2821834349, 2952996808, 3210313671, 3336571891, 3584528711,
   113926993, 338241895, 666307205, 773529912, 1294757372,
   1396182291, 1695183700, 1986661051, 2177026350, 2456956037,
   2730485921, 2820302411, 3259730800, 3345764771, 3516065817,
   3600352804, 4094571909, 275423344, 430227734, 506948616,
   659060556, 883997877, 958139571, 1322822218, 1537002063,
   1747873779, 1955562222, 2024104815, 2227730452, 2361852424,
   2428436474, 2756734187, 3204031479, 3329325298]

/-- Working state of the SHA-256 compression function. -/
structure Hash8 where
  a : Nat
  b : Nat
  c : Nat
  d : Nat
  e : Nat
  f : Nat
  g : Nat
  h : Nat
deriving DecidableEq, Repr

/-- Initial SHA-256 hash value of FIPS 180-4 (in decimal). -/
def sha256Init : Hash8 :=
  ⟨1779033703, 3144134277, 1013904242, 2773480762,
   1359893119, 2600822924, 528734635, 1541459225⟩

/-- One round of the SHA-256 compression function with constant and
schedule word `kw`. -/
def compressStep (s : Hash8) (kw : Nat × Nat) : Hash8 :=
  let t1 := (s.h + bigSigma1 s.e + shaCh s.e s.f s.g + kw.1 + kw.2) % 4294967296
  let t2 := (bigSigma0 s.a + shaMaj s.a s.b s.c) % 4294967296
  { a := (t1 + t2) % 4294967296, b := s.a, c := s.b, d := s.c,
    e := (s.d + t1) % 4294967296, f := s.e, g := s.f, h := s.g }

/-- Compresses one 64-byte block into the running hash value. -/
def compressBlock (hs : Hash8) (block : List Nat) : Hash8 :=
  let w := sha256Schedule block
  let s := (sha256K.zip w.toList).foldl compressStep hs
  { a := (hs.a + s.a) % 4294967296, b := (hs.b + s.b) % 4294967296,
    c := (hs.c + s.c) % 4294967296, d := (hs.d + s.d) % 4294967296,
    e := (hs.e + s.e) % 4294967296, f := (hs.f + s.f) % 4294967296,
    g := (hs.g + s.g) % 4294967296, h := (hs.h + s.h) % 4294967296 }

/-- SHA-256 padding: a `0x80` byte, zeros to 56 mod 64, then the bit
length as 8 big-endian bytes. -/
def sha256Pad (msg : List Nat) : List Nat :=
  let len := msg.length
  let zeros := (119 - len % 64) % 64
  msg ++ [0x80] ++ List.replicate zeros 0 ++ beBytes 8 (len * 8)

/-- Splits a list into 64-element chunks (fuel-based recursion). -/
def chunksAux : Nat → List Nat → List (List Nat)
  | 0, _ => []
  | _, [] => []
  | fuel + 1, l => l.take 64 :: chunksAux fuel (l.drop 64)

/-- Splits a list into 64-element chunks. -/
def chunks64 (l : List Nat) : List (List Nat) :=
  chunksAux l.length l

/-- SHA-256 of a byte list, as a 32-byte list. -/
def sha256 (msg : List Nat) : List Nat :=
  let hs := (chunks64 (sha256Pad msg)).foldl compressBlock sha256Init
  beBytes 4 hs.a ++ beBytes 4 hs.b ++ beBytes 4 hs.c ++ beBytes 4 hs.d ++
    beBytes 4 hs.e ++ beBytes 4 hs.f ++ beBytes 4 hs.g ++ beBytes 4 hs.h

/-- HMAC-SHA256 per RFC 2104, as instantiated by Go's
`hmac.New(sha256.New, key)`. -/
def hmacSha256 (key msg : List Nat) : List Nat :=
  let k0 := if key.length > 64 then sha256 key else key
  let kPad := k0 ++ List.replicate (64 - k0.length) 0
  let ipadKey := kPad.map (fun b => b ^^^ 0x36)
  let opadKey := kPad.map (fun b => b ^^^ 0x5c)
  sha256 (opadKey ++ sha256 (ipadKey ++ msg))

/-- The sixteen lowercase hex digits (Go's `hextable` constant). -/
def hexChars : List Char :=
  "0123456789abcdef".data

/-- Models `hex.EncodeToString`: lowercase hex of a byte list. -/
def hexEncode (bytes : List Nat) : String :=
  String.mk (bytes.foldr (fun b acc =>
    hexChars.getD (b / 16 % 16) '0' :: hexChars.getD (b % 16) '0' :: acc) [])

/-- UTF-8 bytes of a string (Go strings and `[]byte(s)` conversions). -/
def strBytes (s : String) : List Nat :=
  s.toUTF8.toList.map (fun b => b.toNat)

/-! ### Signature validation
(`DefaultSecurityService.ValidateSignature`, `GenerateSignature`) -/

/-- Models the canonical-string construction shared by
`ValidateSignature` and `GenerateSignature`: collect the map's keys
except `sign`, sort them ascending, and render `k=params[k]` pairs
joined by `&`.  The Go map is represented as an association list with
distinct keys; `params.lookup k` is the map access `params[k]`. -/
def buildParamString (params : List (String × String)) : String :=
  let keys := (params.map Prod.fst).filter (fun k => k != "sign")
  let sorted := keys.mergeSort (fun a b => a ≤ b)
  String.intercalate "&" (sorted.map (fun k => k ++ "=" ++ ((params.lookup k).getD "")))

/-- Models the package-level `GenerateSignature(params, secret)`:
lowercase hex of HMAC-SHA256 over the canonical parameter string. -/
def generateSignature (params : List (String × String)) (secret : String) : String :=
  hexEncode (hmacSha256 (strBytes secret) (strBytes (buildParamString params)))

/-- Models `hmac.Equal` (`subtle.ConstantTimeCompare`): true exactly
when the two byte sequences are equal; on UTF-8 encodings of strings
this is string equality.  The constant-time evaluation strategy of the
primitive is outside the embedding. -/
def hmacEqual (a b : String) : Bool :=
  a == b

/-- Models `DefaultSecurityService.ValidateSignature`: recomputes the
expected signature from the parameters and the service's signature
secret and compares with `hmac.Equal`; a mismatch yields the
`invalid signature` error. -/
def validateSignature (signatureSecret : String) (params : List (String × String))
    (signature : String) : Except String Unit :=
  let expectedSign := generateSignature params signatureSecret
  if hmacEqual expectedSign signature then Except.ok ()
  else Except.error "invalid signature"

/-- The canonical string as the specification words it: drop the pair
whose key is the signature field, sort the remaining key-value pairs by
key ascending, render each as `key=value`, join with `&`. -/
def specCanonicalString (params : List (String × String)) : String :=
  String.intercalate "&"
    (((params.filter (fun p => p.1 != "sign")).mergeSort (fun p q => p.1 ≤ q.1)).map
      (fun p => p.1 ++ "=" ++ p.2))

/-- The signature demanded by the specification: lowercase hex of
HMAC-SHA256, keyed with the shared secret, over the canonical string. -/
def specExpectedSignature (secret : String) (params : List (String × String)) : String :=
  hexEncode (hmacSha256 (strBytes secret) (strBytes (specCanonicalString params)))

/-! ### Token service (`pkg/auth/jwt.go`)

The `golang-jwt/v5` codec is an external collaborator, consumed as a
black box.  It is modelled as an ideal MAC-based codec: a signed token
is its claim set together with the algorithm name and the key that
produced it; parsing with a verification key succeeds exactly when the
algorithm is the HMAC family and the keys coincide, then enforces the
registered `exp`/`nbf` claims against the supplied current time (jwt v5
default validation: expired when `exp ≤ now`, not yet valid when
`now < nbf`).  Time is an abstract integer instant. -/

/-- The claim set of `auth.Claims` (custom fields plus the registered
claims that `GenerateTokenPair` fills in). -/
structure JwtClaims where
  userID : Int
  email : String
  role : String
  tokenType : String
  tokenID : String
  expiresAt : Int
  issuedAt : Int
  notBefore : Int
  issuer : String
  subject : String
deriving DecidableEq, Repr

/-- A signed token string, modelled as the data it determines: claims,
algorithm, and signing key (ideal unforgeable MAC). -/
structure SignedToken where
  claims : JwtClaims
  alg : String
  key : String
deriving DecidableEq, Repr

/-- Configuration fields of `JWTService`. -/
structure JWTService where
  accessSecret : String
  refreshSecret : String
  accessTokenDuration : Int
  refreshTokenDuration : Int
  defaultAccessTokenExp : Int
  defaultRefreshTokenExp : Int
deriving DecidableEq, Repr

/-- The `TokenPair` returned by issuance and rotation. -/
structure TokenPair where
  accessToken : SignedToken
  refreshToken : SignedToken
  expiresIn : Int
deriving DecidableEq, Repr

/-- The token blacklist keyspace `blacklist:token:<id>`: entries are
(token id, TTL at insertion). -/
abbrev Blacklist := List (String × Int)

/-- Models `RedisClient.BlacklistToken`: `SET blacklist:token:<id> 1 EX ttl`. -/
def blacklistToken (bl : Blacklist) (tokenID : String) (expiration : Int) : Blacklist :=
  (tokenID, expiration) :: bl

/-- Models `RedisClient.IsTokenBlacklisted`: `EXISTS blacklist:token:<id>`. -/
def isTokenBlacklisted (bl : Blacklist) (tokenID : String) : Bool :=
  (bl.map Prod.fst).contains tokenID

/-- Models `jwt.ParseWithClaims` with the repository's key function
(which rejects non-HMAC algorithms) and the default registered-claim
validation of jwt v5. -/
def parseWithClaims (tok : SignedToken) (secret : String) (now : Int) :
    Except String JwtClaims :=
  if tok.alg != "HS256" then
    Except.error ("unexpected signing method: " ++ tok.alg)
  else if tok.key != secret then
    Except.error "signature is invalid"
  else if tok.claims.expiresAt ≤ now then
    Except.error "token is expired"
  else if now < tok.claims.notBefore then
    Except.error "token is not valid yet"
  else
    Except.ok tok.claims

/-- Models `JWTService.GenerateTokenPair`: builds the access and refresh
claim sets (fresh random ids passed in as `accessTokenID` and
`refreshTokenID`, standing for `uuid.New().String()`), signs each with
its type-specific secret, and reports `defaultAccessTokenExp` as
`expires_in`. -/
def generateTokenPair (s : JWTService) (userID : Int) (email role : String)
    (accessTokenID refreshTokenID : String) (now : Int) : TokenPair :=
  { accessToken :=
      { claims :=
          { userID := userID, email := email, role := role,
            tokenType := "access", tokenID := accessTokenID,
            expiresAt := now + s.accessTokenDuration, issuedAt := now,
            notBefore := now, issuer := "gin-pkg", subject := toString userID },
        alg := "HS256", key := s.accessSecret },
    refreshToken :=
      { claims :=
          { userID := userID, email := email, role := role,
            tokenType := "refresh", tokenID := refreshTokenID,
            expiresAt := now + s.refreshTokenDuration, issuedAt := now,
            notBefore := now, issuer := "gin-pkg", subject := toString userID },
        alg := "HS256", key := s.refreshSecret },
    expiresIn := s.defaultAccessTokenExp }

/-- Models `JWTService.ValidateToken`: selects the secret by the
expected token type (anything else is `invalid token type`), parses and
verifies, wraps parse failures as `failed to parse token: <e>`, then
checks the embedded type and the blacklist. -/
def validateToken (s : JWTService) (tok : SignedToken) (tokenType : String)
    (bl : Blacklist) (now : Int) : Except String JwtClaims :=
  let chosen : Option String :=
    if tokenType = "access" then some s.accessSecret
    else if tokenType = "refresh" then some s.refreshSecret
    else none
  match chosen with
  | none => Except.error "invalid token type"
  | some secret =>
    match parseWithClaims tok secret now with
    | Except.error e => Except.error ("failed to parse token: " ++ e)
    | Except.ok claims =>
      if claims.tokenType != tokenType then
        Except.error "token type mismatch"
      else if isTokenBlacklisted bl claims.tokenID then
        Except.error "token has been revoked"
      else
        Except.ok claims

/-- Models `JWTService.RefreshTokens`: validates the refresh token,
wraps any failure as `invalid refresh token: <e>`, blacklists the used
token id with TTL `time.Until(claims.ExpiresAt)` = remaining lifetime,
and issues a fresh pair for the same identity.  Returns the new pair and
the updated blacklist. -/
def refreshTokens (s : JWTService) (tok : SignedToken) (bl : Blacklist) (now : Int)
    (accessTokenID refreshTokenID : String) : Except String (TokenPair × Blacklist) :=
  match validateToken s tok "refresh" bl now with
  | Except.error e => Except.error ("invalid refresh token: " ++ e)
  | Except.ok claims =>
    let expiry := claims.expiresAt - now
    let bl2 := blacklistToken bl claims.tokenID expiry
    Except.ok
      (generateTokenPair s claims.userID claims.email claims.role
        accessTokenID refreshTokenID now, bl2)

/-! ### Request security middleware (`pkg/middleware/security.go`)

The middleware is modelled after parameter extraction: `timestamp`,
`nonce` and `sign` are the values `getParameter` produced (`""` when
absent), and `params` is the parameter map the middleware body collects
for signature validation.  A result records the HTTP status written on
abort (`none` when the request proceeds via `c.Next()`), the error
message of the JSON body, the resulting nonce-store state, and the
validation steps performed in order. -/

/-- The three validation steps of the security middleware. -/
inductive MwStep where
  | timestampCheck
  | nonceCheck
  | signatureCheck
deriving DecidableEq, Repr

/-- A request as seen by the security middleware after parameter
extraction. -/
structure SecRequest where
  fullPath : String
  timestamp : String
  nonce : String
  sign : String
  params : List (String × String)

/-- Outcome of one run of the security middleware. -/
structure MwResult where
  status : Option Nat
  errMsg : Option String
  store : NonceStore
  steps : List MwStep

/-- Models `SecurityMiddleware`: the nonce-issuing endpoint
`/api/v1/auth/nonce` requires only a present, valid timestamp; every
other route requires all three parameters, then validates the timestamp,
then consumes the nonce, then verifies the signature, aborting with
HTTP 400 and the error message at the first failure. -/
def securityMiddleware (signatureSecret : String) (timestampWindow : Int)
    (faults : StoreFaults) (req : SecRequest) (st : NonceStore) (nowNs : Int) :
    MwResult :=
  if req.fullPath = "/api/v1/auth/nonce" then
    if req.timestamp = "" then
      ⟨some 400, some "timestamp is required", st, []⟩
    else
      match validateTimestamp req.timestamp timestampWindow nowNs with
      | Except.error e => ⟨some 400, some e, st, [MwStep.timestampCheck]⟩
      | Except.ok _ => ⟨none, none, st, [MwStep.timestampCheck]⟩
  else if req.timestamp = "" ∨ req.nonce = "" ∨ req.sign = "" then
    ⟨some 400, some "timestamp, nonce, and signature are required", st, []⟩
  else
    match validateTimestamp req.timestamp timestampWindow nowNs with
    | Except.error e => ⟨some 400, some e, st, [MwStep.timestampCheck]⟩
    | Except.ok _ =>
      match validateNonce faults st req.nonce with
      | (Except.error e, st2) =>
        ⟨some 400, some e, st2, [MwStep.timestampCheck, MwStep.nonceCheck]⟩
      | (Except.ok _, st2) =>
        match validateSignature signatureSecret req.params req.sign with
        | Except.error e =>
          ⟨some 400, some e, st2,
            [MwStep.timestampCheck, MwStep.nonceCheck, MwStep.signatureCheck]⟩
        | Except.ok _ =>
          ⟨none, none, st2,
            [MwStep.timestampCheck, MwStep.nonceCheck, MwStep.signatureCheck]⟩

/-! ### Optional auth middleware (`pkg/middleware/auth.go`) -/

/-- Models `strings.SplitN(s, " ", 2)`: splits at the first space only. -/
def splitN2 (s : String) : List String :=
  match s.splitOn " " with
  | [] => [s]
  | [p] => [p]
  | p :: rest => [p, String.intercalate " " rest]

/-- The identity keys `OptionalAuthMiddleware` sets in the request
context on success. -/
structure AuthIdentity where
  userID : Int
  email : String
  role : String
  tokenID : String
  authenticated : Bool
deriving DecidableEq, Repr

/-- Outcome of the optional auth middleware: whether the request
proceeded to the handler, and the identity keys set (if any). -/
structure OptAuthResult where
  proceeded : Bool
  identity : Option AuthIdentity
deriving DecidableEq, Repr

/-- Models `OptionalAuthMiddleware`, parameterised over the token
service's validation against the access type (the `auth.TokenService`
dependency): an absent header, a header not of the form
`Bearer <token>`, or a failing validation all fall through to
`c.Next()` without setting identity keys; a valid access token sets
userID, email, role, tokenID and `authenticated = true` and proceeds. -/
def optionalAuthMiddleware (validateTok : String → Except String JwtClaims)
    (authHeader : String) : OptAuthResult :=
  if authHeader = "" then
    ⟨true, none⟩
  else if (splitN2 authHeader).length = 2 ∧ (splitN2 authHeader).getD 0 "" = "Bearer" then
    match validateTok ((splitN2 authHeader).getD 1 "") with
    | Except.error _ => ⟨true, none⟩
    | Except.ok claims =>
      ⟨true, some ⟨claims.userID, claims.email, claims.role, claims.tokenID, true⟩⟩
  else
    ⟨true, none⟩

/-! ## Helper lemmas -/

/-- A nonce just stored is visible to `GetNonce`. -/
theorem getNonce_storeNonce_self (st : NonceStore) (n : String) :
    getNonce (storeNonce st n) n = true := by
  simp [getNonce, storeNonce, List.contains_cons]

/-- After `InvalidateNonce n`, the key `n` is gone. -/
theorem getNonce_invalidateNonce_self (st : NonceStore) (n : String) :
    getNonce (invalidateNonce st n) n = false := by
  simp only [getNonce, invalidateNonce]
  rw [Bool.eq_false_iff]
  intro hc
  simp [List.elem_iff, List.mem_filter] at hc

/-- `InvalidateNonce` never adds keys. -/
theorem getNonce_invalidateNonce_mono (st : NonceStore) (m n : String)
    (h : getNonce st n = false) : getNonce (invalidateNonce st m) n = false := by
  simp only [getNonce, invalidateNonce] at h ⊢
  rw [Bool.eq_false_iff] at h ⊢
  intro hc
  exact h (by
    have hm : n ∈ st.filter (fun k => k != m) := by simpa [List.elem_iff] using hc
    simpa [List.elem_iff] using List.mem_of_mem_filter hm)

/-- Fault-free `ValidateNonce` never adds keys. -/
theorem validateNonce_state_mono (st : NonceStore) (m n : String)
    (h : getNonce st n = false) :
    getNonce (validateNonce StoreFaults.clean st m).2 n = false := by
  simp only [validateNonce, StoreFaults.clean]
  by_cases hg : getNonce st m
  · simp [hg]
    exact getNonce_invalidateNonce_mono st m n h
  · simp [hg]
    exact h

/-- A nonce absent from the store stays absent across any sequence of
operations that never re-issues that exact value. -/
theorem runOps_not_contains (ops : List SecOp) (st : NonceStore) (n : String)
    (h : getNonce st n = false) (hops : ∀ f, SecOp.gen f ∈ ops → f ≠ n) :
    getNonce (runOps ops st) n = false := by
  induction ops generalizing st with
  | nil => exact h
  | cons op rest ih =>
    cases op with
    | gen f =>
      have hf : f ≠ n := hops f (by simp)
      refine ih (generateNonce st f).2 ?_ (fun f' hf' => hops f' (by simp [hf']))
      simp only [generateNonce, storeNonce, getNonce, List.contains_cons] at h ⊢
      simp only [Bool.or_eq_false_iff]
      exact ⟨by simpa using Ne.symm hf, h⟩
    | consume m =>
      refine ih _ ?_ (fun f' hf' => hops f' (by simp [hf']))
      exact validateNonce_state_mono st m n h

/-- `ValidateNonce` on an absent nonce fails with the policy error. -/
theorem validateNonce_absent (st : NonceStore) (n : String)
    (h : getNonce st n = false) :
    validateNonce StoreFaults.clean st n =
      (Except.error "invalid or expired nonce", st) := by
  simp [validateNonce, StoreFaults.clean, h]

/-! ## Claims -/

/-- C1: Nonce single-use (sequential).  For a nonce issued by
`GenerateNonce` into any store state, the first fault-free
`ValidateNonce` succeeds, and after it any later `ValidateNonce` of the
same value fails with the invalid-or-expired-nonce outcome, whatever
fault-free operations ran in between, provided no later issuance
returns the same random value. -/
theorem nonce_single_use (st : NonceStore) (fresh : String) (ops : List SecOp)
    (hops : ∀ f, SecOp.gen f ∈ ops → f ≠ fresh) :
    (validateNonce StoreFaults.clean (generateNonce st fresh).2 fresh).1 =
      Except.ok () ∧
    (validateNonce StoreFaults.clean
        (runOps ops (validateNonce StoreFaults.clean (generateNonce st fresh).2 fresh).2)
        fresh).1 = Except.error "invalid or expired nonce" := by
  have hstore : getNonce (generateNonce st fresh).2 fresh = true :=
    getNonce_storeNonce_self st fresh
  constructor
  · simp [validateNonce, StoreFaults.clean, hstore]
  · have h1 : (validateNonce StoreFaults.clean (generateNonce st fresh).2 fresh).2 =
        invalidateNonce (generateNonce st fresh).2 fresh := by
      simp [validateNonce, StoreFaults.clean, hstore]
    rw [h1]
    have h2 : getNonce
        (runOps ops (invalidateNonce (generateNonce st fresh).2 fresh)) fresh = false :=
      runOps_not_contains ops _ fresh
        (getNonce_invalidateNonce_self _ fresh) hops
    rw [validateNonce_absent _ _ h2]

/-- C1 witness: a concrete issuance followed by a consume, an unrelated
issuance and consume, and a replayed consume of the first nonce. -/
theorem nonce_single_use_witness :
    (validateNonce StoreFaults.clean (generateNonce [] "n1").2 "n1").1 =
      Except.ok () ∧
    (validateNonce StoreFaults.clean
        (runOps [SecOp.gen "n2", SecOp.consume "n2"]
          (validateNonce StoreFaults.clean (generateNonce [] "n1").2 "n1").2)
        "n1").1 = Except.error "invalid or expired nonce" :=
  nonce_single_use [] "n1" [SecOp.gen "n2", SecOp.consume "n2"]
    (by
      intro f hf
      simp only [List.mem_cons, List.not_mem_nil, or_false] at hf
      rcases hf with hf | hf
      · cases hf; decide
      · cases hf)

/-- C2: the check-and-delete inside `ValidateNonce` is two separate
Redis commands (`EXISTS`, then `DEL`), not one atomic primitive; under
the interleaving `EXISTS_a, EXISTS_b, DEL_a, DEL_b` both concurrent
consumers of the same issued nonce run to completion and both return
success, while the fully sequential interleaving lets only the first
succeed.  This refutes the race-freedom the claim (and the spec's §4.1
concurrency requirement) demands of the code. -/
theorem validateNonce_race_both_succeed :
    ((runSchedule [true, false, true, false] true Consumer.init Consumer.init).2.1 =
        ⟨2, true⟩ ∧
      (runSchedule [true, false, true, false] true Consumer.init Consumer.init).2.2 =
        ⟨2, true⟩) ∧
    ((runSchedule [true, true, false, false] true Consumer.init Consumer.init).2.1 =
        ⟨2, true⟩ ∧
      (runSchedule [true, true, false, false] true Consumer.init Consumer.init).2.2 =
        ⟨2, false⟩) := by
  decide

/-- C6: for a positive window, a parsable millisecond timestamp is
accepted exactly when `now - ts` lies in the inclusive interval
`[-w, w]`; the boundary instants `now - w` and `now + w` are accepted,
one millisecond beyond either boundary is rejected with the
out-of-window error, and an unparsable timestamp fails with the
invalid-format error. -/
theorem validateTimestamp_window_symmetric (w nowNs ts : Int) (s : String)
    (hw : 0 < w) :
    (parseInt64 s = some ts →
      ((validateTimestamp s w nowNs = Except.ok ()) ↔
        -w ≤ nowNs - ts * 1000000 ∧ nowNs - ts * 1000000 ≤ w) ∧
      (ts * 1000000 = nowNs - w ∨ ts * 1000000 = nowNs + w →
        validateTimestamp s w nowNs = Except.ok ()) ∧
      (ts * 1000000 = nowNs - w - 1000000 ∨ ts * 1000000 = nowNs + w + 1000000 →
        validateTimestamp s w nowNs =
          Except.error "timestamp is outside validity window")) ∧
    (parseInt64 s = none →
      validateTimestamp s w nowNs = Except.error "invalid timestamp format") := by
  constructor
  · intro hp
    have hform : validateTimestamp s w nowNs =
        if nowNs - ts * 1000000 < -w ∨ nowNs - ts * 1000000 > w then
          Except.error "timestamp is outside validity window"
        else Except.ok () := by
      simp [validateTimestamp, hp]
    refine ⟨?_, ?_, ?_⟩
    · rw [hform]
      split
      · rename_i hcond
        constructor
        · intro h; cases h
        · intro h; omega
      · rename_i hcond
        constructor
        · intro _; constructor <;> omega
        · intro _; rfl
    · intro hb
      rw [hform, if_neg]
      omega
    · intro hb
      rw [hform, if_pos]
      omega
  · intro hp
    simp [validateTimestamp, hp]

/-- C6 witness: window 1 ms, `now` at 2 ms, timestamp string `"2"`. -/
theorem validateTimestamp_window_symmetric_witness :
    (0 : Int) < 1000000 ∧
    ((parseInt64 "2" = some 2 →
      ((validateTimestamp "2" 1000000 2000000 = Except.ok ()) ↔
        (-1000000 : Int) ≤ 2000000 - 2 * 1000000 ∧
          (2000000 : Int) - 2 * 1000000 ≤ 1000000) ∧
      ((2 : Int) * 1000000 = 2000000 - 1000000 ∨
          (2 : Int) * 1000000 = 2000000 + 1000000 →
        validateTimestamp "2" 1000000 2000000 = Except.ok ()) ∧
      ((2 : Int) * 1000000 = 2000000 - 1000000 - 1000000 ∨
          (2 : Int) * 1000000 = 2000000 + 1000000 + 1000000 →
        validateTimestamp "2" 1000000 2000000 =
          Except.error "timestamp is outside validity window")) ∧
    (parseInt64 "2" = none →
      validateTimestamp "2" 1000000 2000000 =
        Except.error "invalid timestamp format")) :=
  ⟨by decide, validateTimestamp_window_symmetric 1000000 2000000 2 "2" (by decide)⟩

/-- C7: contrary to the claim, `ValidateTimestamp` gives window zero no
special meaning: `DefaultAuthService.ValidateTimestamp` (which passes
`0` with the comment `0 will use the default validity window`) rejects
a parsable timestamp only 1 ms away from `now`, while the configured
default window of 60 s accepts the same input; with window `0` only an
exact-to-the-nanosecond match is accepted.  The implementation
contradicts the call site's own documented intent. -/
theorem validateTimestamp_zero_window_exact_match :
    authServiceValidateTimestamp "1" 2000000 =
      Except.error "timestamp is outside validity window" ∧
    validateTimestamp "1" defaultTimestampValidityWindow 2000000 = Except.ok () ∧
    validateTimestamp "1" 0 1000000 = Except.ok () := by
  refine ⟨rfl, rfl, rfl⟩

/-- C10: `OptionalAuthMiddleware` always lets the request proceed to
the handler, whatever the Authorization header and whatever the token
service answers; and whenever identity context keys are set, the header
was a well-formed `Bearer <token>` whose token the service validated as
an access token, and the keys are exactly that token's userID, email,
role and tokenID together with `authenticated = true`. -/
theorem optionalAuth_never_rejects (validateTok : String → Except String JwtClaims)
    (authHeader : String) :
    (optionalAuthMiddleware validateTok authHeader).proceeded = true ∧
    (∀ ident, (optionalAuthMiddleware validateTok authHeader).identity = some ident →
      authHeader ≠ "" ∧
      ∃ tokenString claims,
        splitN2 authHeader = ["Bearer", tokenString] ∧
        validateTok tokenString = Except.ok claims ∧
        ident = ⟨claims.userID, claims.email, claims.role, claims.tokenID, true⟩) := by
  unfold optionalAuthMiddleware
  by_cases h0 : authHeader = ""
  · simp [h0]
  · rw [if_neg h0]
    rcases hsp : splitN2 authHeader with _ | ⟨p0, _ | ⟨p1, _ | rest⟩⟩
    · refine ⟨?_, ?_⟩
      · rw [if_neg (by simp)]
      · intro ident hid
        rw [if_neg (by simp)] at hid
        exact Option.noConfusion hid
    · refine ⟨?_, ?_⟩
      · rw [if_neg (by simp)]
      · intro ident hid
        rw [if_neg (by simp)] at hid
        exact Option.noConfusion hid
    · by_cases hb : p0 = "Bearer"
      · subst hb
        rw [if_pos (by simp)]
        rcases hv : validateTok ((["Bearer", p1] : List String).getD 1 "") with e | claims
        · refine ⟨rfl, ?_⟩
          intro ident hid
          exact Option.noConfusion hid
        · refine ⟨rfl, ?_⟩
          intro ident hid
          have hid2 :
              (⟨claims.userID, claims.email, claims.role, claims.tokenID, true⟩ :
                AuthIdentity) = ident :=
            Option.some.inj hid
          exact ⟨h0, p1, claims, rfl, hv, hid2.symm⟩
      · refine ⟨?_, ?_⟩
        · rw [if_neg (by simp [hb])]
        · intro ident hid
          rw [if_neg (by simp [hb])] at hid
          exact Option.noConfusion hid
    · refine ⟨?_, ?_⟩
      · rw [if_neg (by simp)]
      · intro ident hid
        rw [if_neg (by simp)] at hid
        exact Option.noConfusion hid

/-- C8: on a non-exempt route the security middleware performs its
checks in the order timestamp, nonce, signature (the steps trace is an
initial segment of that sequence); a request with a missing, malformed
or out-of-window timestamp leaves the nonce store untouched and is
aborted with HTTP 400; and the request proceeds exactly when all three
parameters are present and all three validations pass. -/
theorem securityMiddleware_step_order (secret : String) (w : Int)
    (faults : StoreFaults) (req : SecRequest) (st : NonceStore) (now : Int)
    (hpath : req.fullPath ≠ "/api/v1/auth/nonce") :
    ((securityMiddleware secret w faults req st now).steps = [] ∨
      (securityMiddleware secret w faults req st now).steps = [MwStep.timestampCheck] ∨
      (securityMiddleware secret w faults req st now).steps =
        [MwStep.timestampCheck, MwStep.nonceCheck] ∨
      (securityMiddleware secret w faults req st now).steps =
        [MwStep.timestampCheck, MwStep.nonceCheck, MwStep.signatureCheck]) ∧
    ((req.timestamp = "" ∨ validateTimestamp req.timestamp w now ≠ Except.ok ()) →
      (securityMiddleware secret w faults req st now).store = st ∧
      (securityMiddleware secret w faults req st now).status = some 400) ∧
    ((securityMiddleware secret w faults req st now).status = none ↔
      req.timestamp ≠ "" ∧ req.nonce ≠ "" ∧ req.sign ≠ "" ∧
      validateTimestamp req.timestamp w now = Except.ok () ∧
      (validateNonce faults st req.nonce).1 = Except.ok () ∧
      validateSignature secret req.params req.sign = Except.ok ()) := by
  unfold securityMiddleware
  rw [if_neg hpath]
  by_cases hempty : req.timestamp = "" ∨ req.nonce = "" ∨ req.sign = ""
  · rw [if_pos hempty]
    refine ⟨Or.inl rfl, fun _ => ⟨rfl, rfl⟩, ?_⟩
    constructor
    · intro h; cases h
    · intro habs
      rcases hempty with h | h | h
      · exact absurd h habs.1
      · exact absurd h habs.2.1
      · exact absurd h habs.2.2.1
  · rw [if_neg hempty]
    push_neg at hempty
    obtain ⟨ht, hn, hs⟩ := hempty
    rcases hts : validateTimestamp req.timestamp w now with e | u
    · refine ⟨Or.inr (Or.inl rfl), fun _ => ⟨rfl, rfl⟩, ?_⟩
      constructor
      · intro h; cases h
      · intro habs
        exact absurd habs.2.2.2.1 (by simp)
    · cases u
      rcases hvn : validateNonce faults st req.nonce with ⟨res, st2⟩
      rcases res with e | u2
      · refine ⟨Or.inr (Or.inr (Or.inl rfl)), ?_, ?_⟩
        · intro habs
          rcases habs with habs | habs
          · exact absurd habs ht
          · exact absurd rfl habs
        · constructor
          · intro h; cases h
          · intro habs
            exact absurd habs.2.2.2.2.1 (by simp)
      · cases u2
        rcases hvs : validateSignature secret req.params req.sign with e | u3
        · refine ⟨Or.inr (Or.inr (Or.inr rfl)), ?_, ?_⟩
          · intro habs
            rcases habs with habs | habs
            · exact absurd habs ht
            · exact absurd rfl habs
          · constructor
            · intro h; cases h
            · intro habs
              exact absurd habs.2.2.2.2.2 (by simp)
        · cases u3
          refine ⟨Or.inr (Or.inr (Or.inr rfl)), ?_, ?_⟩
          · intro habs
            rcases habs with habs | habs
            · exact absurd habs ht
            · exact absurd rfl habs
          · constructor
            · intro _
              exact ⟨ht, hn, hs, rfl, rfl, rfl⟩
            · intro _; rfl

/-- C8 witness: a concrete non-exempt request whose three checks all
pass. -/
theorem securityMiddleware_step_order_witness :
    ((securityMiddleware "sec" 1000000 StoreFaults.clean
        ⟨"/api/v1/users/me", "2", "n1", "s1", []⟩ ["n1"] 2000000).steps = [] ∨
      (securityMiddleware "sec" 1000000 StoreFaults.clean
        ⟨"/api/v1/users/me", "2", "n1", "s1", []⟩ ["n1"] 2000000).steps =
        [MwStep.timestampCheck] ∨
      (securityMiddleware "sec" 1000000 StoreFaults.clean
        ⟨"/api/v1/users/me", "2", "n1", "s1", []⟩ ["n1"] 2000000).steps =
        [MwStep.timestampCheck, MwStep.nonceCheck] ∨
      (securityMiddleware "sec" 1000000 StoreFaults.clean
        ⟨"/api/v1/users/me", "2", "n1", "s1", []⟩ ["n1"] 2000000).steps =
        [MwStep.timestampCheck, MwStep.nonceCheck, MwStep.signatureCheck]) ∧
    (((⟨"/api/v1/users/me", "2", "n1", "s1", []⟩ : SecRequest).timestamp = "" ∨
        validateTimestamp "2" 1000000 2000000 ≠ Except.ok ()) →
      (securityMiddleware "sec" 1000000 StoreFaults.clean
        ⟨"/api/v1/users/me", "2", "n1", "s1", []⟩ ["n1"] 2000000).store = ["n1"] ∧
      (securityMiddleware "sec" 1000000 StoreFaults.clean
        ⟨"/api/v1/users/me", "2", "n1", "s1", []⟩ ["n1"] 2000000).status = some 400) ∧
    ((securityMiddleware "sec" 1000000 StoreFaults.clean
        ⟨"/api/v1/users/me", "2", "n1", "s1", []⟩ ["n1"] 2000000).status = none ↔
      ("2" : String) ≠ "" ∧ ("n1" : String) ≠ "" ∧ ("s1" : String) ≠ "" ∧
      validateTimestamp "2" 1000000 2000000 = Except.ok () ∧
      (validateNonce StoreFaults.clean ["n1"] "n1").1 = Except.ok () ∧
      validateSignature "sec" [] "s1" = Except.ok ()) :=
  securityMiddleware_step_order "sec" 1000000 StoreFaults.clean
    ⟨"/api/v1/users/me", "2", "n1", "s1", []⟩ ["n1"] 2000000 (by decide)

/-- C9 counterexample: when the nonce store fails with an I/O error
(`EXISTS` itself errors), the security middleware responds with HTTP
400 — the very same status class it uses for the security-policy
rejection of an absent nonce — not with any 5xx status; the claimed
5xx-vs-400 distinction does not exist in the code. -/
theorem securityMiddleware_io_error_status_400 :
    (securityMiddleware "sec" 1000000 ⟨some "connection refused", none⟩
        ⟨"/api/v1/users/me", "2", "n1", "s1", []⟩ ["n1"] 2000000).status =
      some 400 ∧
    (securityMiddleware "sec" 1000000 StoreFaults.clean
        ⟨"/api/v1/users/me", "2", "n1", "s1", []⟩ [] 2000000).status = some 400 ∧
    (securityMiddleware "sec" 1000000 StoreFaults.clean
        ⟨"/api/v1/users/me", "2", "n1", "s1", []⟩ [] 2000000).errMsg =
      some "invalid or expired nonce" := by
  refine ⟨rfl, rfl, rfl⟩

/-- C9 amended: a nonce-store I/O error during validation aborts the
request with HTTP 400 — the same status as the security-policy
rejections — carrying the message `failed to check nonce: <e>`, which
differs from the policy message `invalid or expired nonce`; the store
is left untouched.  I/O failure is distinguishable from a policy
rejection only by the message, not by the status class. -/
theorem securityMiddleware_io_error_bad_request (secret : String) (w now : Int)
    (req : SecRequest) (st : NonceStore) (e : String)
    (hpath : req.fullPath ≠ "/api/v1/auth/nonce")
    (ht : req.timestamp ≠ "") (hn : req.nonce ≠ "") (hs : req.sign ≠ "")
    (hts : validateTimestamp req.timestamp w now = Except.ok ()) :
    (securityMiddleware secret w ⟨some e, none⟩ req st now).status = some 400 ∧
    (securityMiddleware secret w ⟨some e, none⟩ req st now).errMsg =
      some ("failed to check nonce: " ++ e) ∧
    ("failed to check nonce: " ++ e) ≠ "invalid or expired nonce" ∧
    (securityMiddleware secret w ⟨some e, none⟩ req st now).store = st := by
  have hne : ("failed to check nonce: " ++ e) ≠ "invalid or expired nonce" := by
    intro h
    have hd := congrArg String.data h
    rw [String.data_append] at hd
    rw [show "failed to check nonce: ".data = 'f' :: "ailed to check nonce: ".data
      from rfl] at hd
    rw [show "invalid or expired nonce".data = 'i' :: "nvalid or expired nonce".data
      from rfl] at hd
    simp at hd
  unfold securityMiddleware
  rw [if_neg hpath, if_neg (by simp [ht, hn, hs])]
  rw [hts]
  simp only [validateNonce]
  exact ⟨trivial, trivial, hne, trivial⟩

/-- Successful parse: HMAC algorithm, matching key, inside the
validity interval. -/
theorem parseWithClaims_ok (tok : SignedToken) (secret : String) (now : Int)
    (halg : tok.alg = "HS256") (hkey : tok.key = secret)
    (hexp : now < tok.claims.expiresAt) (hnbf : tok.claims.notBefore ≤ now) :
    parseWithClaims tok secret now = Except.ok tok.claims := by
  unfold parseWithClaims
  rw [if_neg (by simp [halg]), if_neg (by simp [hkey]), if_neg (by omega),
    if_neg (by omega)]

/-- A type-correct, unexpired, non-blacklisted refresh token
validates. -/
theorem validateToken_refresh_ok (s : JWTService) (tok : SignedToken)
    (bl : Blacklist) (now : Int)
    (halg : tok.alg = "HS256") (hkey : tok.key = s.refreshSecret)
    (htype : tok.claims.tokenType = "refresh")
    (hbl : isTokenBlacklisted bl tok.claims.tokenID = false)
    (hexp : now < tok.claims.expiresAt) (hnbf : tok.claims.notBefore ≤ now) :
    validateToken s tok "refresh" bl now = Except.ok tok.claims := by
  unfold validateToken
  simp only [String.reduceEq, if_true, if_false]
  rw [parseWithClaims_ok tok s.refreshSecret now halg hkey hexp hnbf]
  simp [htype, hbl]

/-- A blacklisted refresh token is rejected as revoked. -/
theorem validateToken_refresh_revoked (s : JWTService) (tok : SignedToken)
    (bl : Blacklist) (now : Int)
    (halg : tok.alg = "HS256") (hkey : tok.key = s.refreshSecret)
    (htype : tok.claims.tokenType = "refresh")
    (hbl : isTokenBlacklisted bl tok.claims.tokenID = true)
    (hexp : now < tok.claims.expiresAt) (hnbf : tok.claims.notBefore ≤ now) :
    validateToken s tok "refresh" bl now = Except.error "token has been revoked" := by
  unfold validateToken
  simp only [String.reduceEq, if_true, if_false]
  rw [parseWithClaims_ok tok s.refreshSecret now halg hkey hexp hnbf]
  simp [htype, hbl]

/-- Freshly blacklisting an id makes `IsTokenBlacklisted` see it. -/
theorem isTokenBlacklisted_blacklistToken_self (bl : Blacklist) (id : String)
    (ttl : Int) : isTokenBlacklisted (blacklistToken bl id ttl) id = true := by
  simp [isTokenBlacklisted, blacklistToken, List.contains_cons]

/-- Filtering the `sign` key commutes with projecting keys out of the
parameter list. -/
theorem filter_map_fst (params : List (String × String)) :
    (params.map Prod.fst).filter (fun k => k != "sign") =
      (params.filter (fun p => p.1 != "sign")).map Prod.fst := by
  induction params with
  | nil => rfl
  | cons p rest ih => by_cases hp : p.1 != "sign" <;> simp [hp, ih]

/-- In an association list with pairwise-distinct keys, `lookup` of a
member pair's key returns that pair's value. -/
theorem lookup_eq_of_nodup (params : List (String × String)) (p : String × String)
    (hnd : (params.map Prod.fst).Nodup) (hp : p ∈ params) :
    params.lookup p.1 = some p.2 := by
  induction params with
  | nil => cases hp
  | cons q rest ih =>
    rw [List.map_cons, List.nodup_cons] at hnd
    obtain ⟨hq1, hnd2⟩ := hnd
    rcases List.mem_cons.mp hp with rfl | hp2
    · simp [List.lookup]
    · have hq : p.1 ≠ q.1 := by
        intro he
        exact hq1 (he ▸ List.mem_map_of_mem Prod.fst hp2)
      simp only [List.lookup, beq_eq_false_iff_ne.mpr hq]
      exact ih hnd2 hp2

/-- Sorting the pairs by key and then projecting the keys is the same
as projecting the keys and sorting them. -/
theorem map_fst_mergeSort (l : List (String × String)) :
    (l.mergeSort (fun p q => p.1 ≤ q.1)).map Prod.fst =
      (l.map Prod.fst).mergeSort (fun a b => a ≤ b) := by
  have hperm : ((l.mergeSort (fun p q => p.1 ≤ q.1)).map Prod.fst).Perm
      ((l.map Prod.fst).mergeSort (fun a b => a ≤ b)) :=
    ((List.mergeSort_perm l _).map Prod.fst).trans
      (List.mergeSort_perm (l.map Prod.fst) _).symm
  have hs1 : List.Sorted (fun a b : String => a ≤ b)
      ((l.mergeSort (fun p q => p.1 ≤ q.1)).map Prod.fst) := by
    have hpw := @List.sorted_mergeSort (String × String)
      (fun p q => decide (p.1 ≤ q.1))
      (fun a b c hab hbc => by
        simp only [decide_eq_true_eq] at hab hbc ⊢
        exact le_trans hab hbc)
      (fun a b => by
        simp only [Bool.or_eq_true, decide_eq_true_eq]
        exact le_total a.1 b.1)
      l
    exact List.Pairwise.map Prod.fst (fun a b h => of_decide_eq_true h) hpw
  have hs2 : List.Sorted (fun a b : String => a ≤ b)
      ((l.map Prod.fst).mergeSort (fun a b => a ≤ b)) := by
    have hpw := @List.sorted_mergeSort String
      (fun a b => decide (a ≤ b))
      (fun a b c hab hbc => by
        simp only [decide_eq_true_eq] at hab hbc ⊢
        exact le_trans hab hbc)
      (fun a b => by
        simp only [Bool.or_eq_true, decide_eq_true_eq]
        exact le_total a b)
      (l.map Prod.fst)
    exact hpw.imp (fun h => of_decide_eq_true h)
  exact List.eq_of_perm_of_sorted hperm hs1 hs2

/-- Under distinct keys, the canonical string built by the code (sort
the keys, look each one up) equals the specification's canonical string
(sort the pairs by key, render each pair). -/
theorem buildParamString_eq (params : List (String × String))
    (hnd : (params.map Prod.fst).Nodup) :
    buildParamString params = specCanonicalString params := by
  simp only [buildParamString, specCanonicalString]
  rw [filter_map_fst, ← map_fst_mergeSort, List.map_map]
  congr 1
  apply List.map_congr_left
  intro p hp
  have hp1 : p ∈ params.filter (fun p => p.1 != "sign") :=
    (List.mergeSort_perm _ _).mem_iff.mp hp
  have hl := lookup_eq_of_nodup params p hnd (List.mem_of_mem_filter hp1)
  simp [Function.comp, hl]

/-- C3: under the Go-map invariant that parameter keys are distinct,
`ValidateSignature` succeeds exactly when the provided signature equals
the lowercase hex HMAC-SHA256, keyed with the shared secret, of the
canonical string obtained by dropping the `sign` field, sorting the
remaining pairs by key ascending and joining `key=value` pairs with
`&`; any other signature is rejected with the `invalid signature`
error.  The comparison is Go's `hmac.Equal`, modelled extensionally as
byte-sequence equality (its constant-time execution is a timing
property outside the embedding). -/
theorem validateSignature_iff (secret sig : String)
    (params : List (String × String)) (hnd : (params.map Prod.fst).Nodup) :
    (validateSignature secret params sig = Except.ok () ↔
      sig = specExpectedSignature secret params) ∧
    (sig ≠ specExpectedSignature secret params →
      validateSignature secret params sig = Except.error "invalid signature") := by
  have hb := buildParamString_eq params hnd
  simp only [validateSignature, generateSignature, hmacEqual, specExpectedSignature, hb]
  by_cases h : sig =
      hexEncode (hmacSha256 (strBytes secret) (strBytes (specCanonicalString params)))
  · rw [if_pos (by simp [h])]
    constructor
    · exact ⟨fun _ => h, fun _ => rfl⟩
    · intro hne
      exact absurd h hne
  · rw [if_neg (by simp; exact fun hh => h hh.symm)]
    constructor
    · constructor
      · intro hok
        cases hok
      · intro hh
        exact absurd hh h
    · intro _
      rfl

/-- C3 witness: a one-entry parameter map with key `a`. -/
theorem validateSignature_iff_witness :
    ((([("a", "1")] : List (String × String)).map Prod.fst).Nodup) ∧
    ((validateSignature "k" [("a", "1")] "x" = Except.ok () ↔
      "x" = specExpectedSignature "k" [("a", "1")]) ∧
    ("x" ≠ specExpectedSignature "k" [("a", "1")] →
      validateSignature "k" [("a", "1")] "x" = Except.error "invalid signature")) :=
  ⟨by simp, validateSignature_iff "k" "x" [("a", "1")] (by simp)⟩

/-- C4 counterexample: with distinct access and refresh secrets (as the
deployment configuration prescribes), validating a freshly issued
access token against the refresh type fails already at signature
verification — the error is the wrapped parse failure, not the
`token type mismatch` error the claim announces, because the
type-specific secret is selected before parsing and the embedded-type
check is only reached after a successful parse. -/
theorem validateToken_wrong_type_not_mismatch :
    validateToken ⟨"sa", "sb", 3600, 7200, 86400, 2592000⟩
        (generateTokenPair ⟨"sa", "sb", 3600, 7200, 86400, 2592000⟩ 7 "u@example.com"
          "user" "aid" "rid" 0).accessToken "refresh" [] 1 =
      Except.error "failed to parse token: signature is invalid" ∧
    validateToken ⟨"sa", "sb", 3600, 7200, 86400, 2592000⟩
        (generateTokenPair ⟨"sa", "sb", 3600, 7200, 86400, 2592000⟩ 7 "u@example.com"
          "user" "aid" "rid" 0).accessToken "refresh" [] 1 ≠
      Except.error "token type mismatch" := by
  refine ⟨rfl, fun h => ?_⟩
  have h2 : (Except.error "failed to parse token: signature is invalid" :
        Except String JwtClaims) =
      Except.error "token type mismatch" :=
    (Eq.refl (validateToken ⟨"sa", "sb", 3600, 7200, 86400, 2592000⟩
      (generateTokenPair ⟨"sa", "sb", 3600, 7200, 86400, 2592000⟩ 7 "u@example.com"
        "user" "aid" "rid" 0).accessToken "refresh" [] 1)).symm.trans h
  exact absurd (Except.error.inj h2) (by decide)

/-- C4 amended: every issued pair round-trips — validating the access
token against the access type returns the issued identity (same userID,
email and role, token type `access`) — and validating the access token
against the refresh type fails; with distinct type secrets that failure
is the wrapped signature-verification parse error (the type-mismatch
error would fire only if the two secrets coincided). -/
theorem generateTokenPair_round_trip (s : JWTService) (uid : Int)
    (email role aid rid : String) (bl : Blacklist) (now now2 : Int)
    (hbl : isTokenBlacklisted bl aid = false)
    (hnbf : now ≤ now2) (hexp : now2 < now + s.accessTokenDuration)
    (hsec : s.accessSecret ≠ s.refreshSecret) :
    validateToken s (generateTokenPair s uid email role aid rid now).accessToken
        "access" bl now2 =
      Except.ok ⟨uid, email, role, "access", aid, now + s.accessTokenDuration,
        now, now, "gin-pkg", toString uid⟩ ∧
    validateToken s (generateTokenPair s uid email role aid rid now).accessToken
        "refresh" bl now2 =
      Except.error "failed to parse token: signature is invalid" := by
  constructor
  · unfold validateToken
    simp only [String.reduceEq, if_true, if_false]
    rw [parseWithClaims_ok _ s.accessSecret now2 rfl rfl
      (by simp [generateTokenPair]; omega) (by simp [generateTokenPair]; omega)]
    simp [generateTokenPair, hbl]
  · unfold validateToken
    simp only [String.reduceEq, if_true, if_false]
    unfold parseWithClaims
    rw [if_neg (by simp [generateTokenPair])]
    rw [if_pos (by simp [generateTokenPair, bne_iff_ne]; exact hsec)]
    rfl

/-- C4 amended witness: concrete service with distinct secrets, issuing
for user 7 at time 0 and validating at time 1. -/
theorem generateTokenPair_round_trip_witness :
    validateToken ⟨"sa", "sb", 3600, 7200, 86400, 2592000⟩
        (generateTokenPair ⟨"sa", "sb", 3600, 7200, 86400, 2592000⟩ 7 "u@example.com"
          "user" "aid" "rid" 0).accessToken "access" [] 1 =
      Except.ok ⟨7, "u@example.com", "user", "access", "aid", 0 + 3600,
        0, 0, "gin-pkg", toString (7 : Int)⟩ ∧
    validateToken ⟨"sa", "sb", 3600, 7200, 86400, 2592000⟩
        (generateTokenPair ⟨"sa", "sb", 3600, 7200, 86400, 2592000⟩ 7 "u@example.com"
          "user" "aid" "rid" 0).accessToken "refresh" [] 1 =
      Except.error "failed to parse token: signature is invalid" :=
  generateTokenPair_round_trip ⟨"sa", "sb", 3600, 7200, 86400, 2592000⟩ 7
    "u@example.com" "user" "aid" "rid" [] 0 1 rfl (by decide) (by decide) (by decide)

/-- C5: rotating a valid refresh token blacklists its token id with TTL
exactly its remaining time-to-expiry and issues a fresh pair carrying
the same userID, email and role; replaying the same refresh token
against the resulting blacklist — at any later instant still inside the
token's own validity interval — fails with the revoked error (wrapped
as `invalid refresh token: token has been revoked`). -/
theorem refreshTokens_rotation_non_replayable (s : JWTService) (tok : SignedToken)
    (bl : Blacklist) (now now2 : Int) (a1 r1 a2 r2 : String)
    (halg : tok.alg = "HS256") (hkey : tok.key = s.refreshSecret)
    (htype : tok.claims.tokenType = "refresh")
    (hbl : isTokenBlacklisted bl tok.claims.tokenID = false)
    (hexp : now < tok.claims.expiresAt) (hnbf : tok.claims.notBefore ≤ now)
    (hexp2 : now2 < tok.claims.expiresAt) (hnbf2 : tok.claims.notBefore ≤ now2) :
    refreshTokens s tok bl now a1 r1 =
      Except.ok
        (generateTokenPair s tok.claims.userID tok.claims.email tok.claims.role
          a1 r1 now,
         blacklistToken bl tok.claims.tokenID (tok.claims.expiresAt - now)) ∧
    refreshTokens s tok
        (blacklistToken bl tok.claims.tokenID (tok.claims.expiresAt - now)) now2 a2 r2 =
      Except.error "invalid refresh token: token has been revoked" := by
  constructor
  · unfold refreshTokens
    rw [validateToken_refresh_ok s tok bl now halg hkey htype hbl hexp hnbf]
  · unfold refreshTokens
    rw [validateToken_refresh_revoked s tok _ now2 halg hkey htype
      (isTokenBlacklisted_blacklistToken_self bl tok.claims.tokenID _) hexp2 hnbf2]
    rfl

/-- C5 witness: a concrete refresh token rotated at time 10 and
replayed at time 20, within its validity until 100. -/
theorem refreshTokens_rotation_non_replayable_witness :
    refreshTokens ⟨"sa", "sb", 3600, 7200, 86400, 2592000⟩
        ⟨⟨7, "u@example.com", "user", "refresh", "rid0", 100, 0, 0, "gin-pkg", "7"⟩,
          "HS256", "sb"⟩ [] 10 "a1" "r1" =
      Except.ok
        (generateTokenPair ⟨"sa", "sb", 3600, 7200, 86400, 2592000⟩ 7 "u@example.com"
          "user" "a1" "r1" 10,
         blacklistToken [] "rid0" (100 - 10)) ∧
    refreshTokens ⟨"sa", "sb", 3600, 7200, 86400, 2592000⟩
        ⟨⟨7, "u@example.com", "user", "refresh", "rid0", 100, 0, 0, "gin-pkg", "7"⟩,
          "HS256", "sb"⟩ (blacklistToken [] "rid0" (100 - 10)) 20 "a2" "r2" =
      Except.error "invalid refresh token: token has been revoked" :=
  refreshTokens_rotation_non_replayable ⟨"sa", "sb", 3600, 7200, 86400, 2592000⟩
    ⟨⟨7, "u@example.com", "user", "refresh", "rid0", 100, 0, 0, "gin-pkg", "7"⟩,
      "HS256", "sb"⟩ [] 10 20 "a1" "r1" "a2" "r2" rfl rfl rfl rfl
    (by decide) (by decide) (by decide) (by decide)

/-- C9 amended witness: a concrete request hitting a store whose
`EXISTS` call fails with `connection refused`. -/
theorem securityMiddleware_io_error_bad_request_witness :
    (securityMiddleware "sec" 1000000 ⟨some "connection refused", none⟩
        ⟨"/api/v1/users/me", "2", "n1", "s1", []⟩ ["n1"] 2000000).status =
      some 400 ∧
    (securityMiddleware "sec" 1000000 ⟨some "connection refused", none⟩
        ⟨"/api/v1/users/me", "2", "n1", "s1", []⟩ ["n1"] 2000000).errMsg =
      some ("failed to check nonce: " ++ "connection refused") ∧
    ("failed to check nonce: " ++ "connection refused") ≠
      "invalid or expired nonce" ∧
    (securityMiddleware "sec" 1000000 ⟨some "connection refused", none⟩
        ⟨"/api/v1/users/me", "2", "n1", "s1", []⟩ ["n1"] 2000000).store = ["n1"] :=
  securityMiddleware_io_error_bad_request "sec" 1000000 2000000
    ⟨"/api/v1/users/me", "2", "n1", "s1", []⟩ ["n1"] "connection refused"
    (by decide) (by decide) (by decide) (by decide) rfl

end GinPkg
